import Mathlib

/-!
Verification of the loop-based registration core of RoomScanner
(src/core/registration/edgebasedregistration.hpp), as a shallow embedding.

Frames, keypoints and fitness scores are abstract types F, K and S; rigid
4x4 transforms are the elements of an abstract monoid M whose
multiplication is matrix composition and whose 1 is
Eigen::Matrix4f::Identity().  External collaborators of the header
(PcdInputIterator frame source, PcdFilters, LinearRegistration with SaC
and ICP strategies, ELCH and LUM correction, EdgeBalancer) are modelled
as an explicit record of functions.  C++ unsigned-int arithmetic is Nat
with explicit reduction mod 2^32 wherever wrap-around can matter.
Exceptions are an explicit error type; undefined behaviour that the code
can reach (front() of an empty vector, indexing a vector past its size)
is modelled as a distinguished out-of-bounds error.
-/

namespace EdgeBasedRegistration

/-- Modulus of C++ 32-bit unsigned-int arithmetic. -/
def UINT_MOD : ℕ := 4294967296

/-- Errors the embedded pipeline can raise: std::invalid_argument from the
Loop constructor, std::runtime_error from the edge-count consistency
check, and reachable out-of-bounds vector accesses. -/
inductive RegError
  | invalidArgument
  | consistencyError
  | outOfBounds
  deriving DecidableEq, Repr

/-- Configuration values read from QSettings before the pipeline starts:
READ_FROM/READ_TO/READ_STEP, EDGE_BASED_RECONSTRUCTION_FIXED_STEP
(loop_size), EDGE_BASED_RECONSTRUCTION_EDGE_BALANCING and
EDGE_BASED_RECONSTRUCTION_ELCH_LUM. -/
structure Config where
  read_from : ℕ
  read_to : ℕ
  read_step : ℕ
  loop_size : ℕ
  edge_balancing : Bool
  elch_lum : Bool
  deriving DecidableEq, Repr

/-- EdgeBasedRegistration::Loop.  edge_frames is Option-valued because the
C++ member is default-constructed and only later assigned by the global
edge aligner; inner_transformations and inner_t_fitness_scores are the
inherited RegistrationAlgorithm::Loop fields written by
process_one_loop. -/
structure Loop (F K M S : Type) where
  edge_frames_indexes : ℕ × ℕ
  edge_frames : Option (F × F)
  edge_keypoints : Option K
  edge_transformations : M × M
  inner_transformations : List M
  inner_t_fitness_scores : List S
  deriving DecidableEq

variable {F K M S : Type} [Monoid M]

/-- The Loop constructor: both indices are taken as 32-bit unsigned
values; it throws std::invalid_argument exactly when the unsigned
difference end - start is zero, and otherwise initializes both boundary
transforms to the identity. -/
def mkLoop (start_loop_frame_index end_loop_frame_index : ℕ) :
    Except RegError (Loop F K M S) :=
  let s := start_loop_frame_index % UINT_MOD
  let e := end_loop_frame_index % UINT_MOD
  if (e + UINT_MOD - s) % UINT_MOD = 0 then
    .error .invalidArgument
  else
    .ok { edge_frames_indexes := (s, e),
          edge_frames := none,
          edge_keypoints := none,
          edge_transformations := (1, 1),
          inner_transformations := [],
          inner_t_fitness_scores := [] }

/-- Fixed-mode edge index pairs of prepare_all_loops, i.e. the loop
  for (uint i = read_from + read_loop_size; i <= read_to; i += read_loop_size)
      loops.push_back(Loop(i - read_loop_size, i));
written with structural fuel (the loop variable and its increment follow
uint wrap-around; fuel read_to + 1 covers every terminating run with a
positive step, while with step 0 the C++ loop never terminates). -/
def fixedLoopsAux (L read_to : ℕ) : ℕ → ℕ → List (ℕ × ℕ)
  | _, 0 => []
  | i, fuel + 1 =>
    if i ≤ read_to then
      ((UINT_MOD + i - L) % UINT_MOD, i) :: fixedLoopsAux L read_to ((i + L) % UINT_MOD) fuel
    else []

/-- The fixed-mode edge pairs for a whole configuration; read_loop_size
is the uint product loop_size * read_step. -/
def fixedLoops (read_from read_to read_step loop_size : ℕ) : List (ℕ × ℕ) :=
  let L := (loop_size * read_step) % UINT_MOD
  fixedLoopsAux L read_to ((read_from + L) % UINT_MOD) (read_to + 1)

/-- Result of one LinearRegistration::align call: the per-frame transforms
it returns, the transformed frames it writes into its output argument,
and the keypoint state exposed by getKeypoints, getTransformedKeypoints
and getFitnessScores. -/
structure AlignResult (F K M S : Type) where
  transforms : List M
  transformed : List F
  keypoints : List K
  transformedKeypoints : List K
  scores : List S

/-- Result of one Correction::correct call: the per-frame corrective
transforms it returns, the corrected frames it writes into its output
argument, and getTransformedKeypoints. -/
structure CorrectResult (F K M : Type) where
  transforms : List M
  transformed : List F
  transformedKeypoints : List K

/-- The external collaborators of edgebasedregistration.hpp, as functions:
the PcdInputIterator frame source over (first, last, step), the PcdFilters
pass, LinearRegistration with the SaC strategy (frames, initial
transform), LinearRegistration with the ICP strategy (frames, keypoint
seed, initial transform), the EdgeBalancer (strided frame stream,
loop_size), and the ELCH / LUM correctors (frames, keypoints, current
transforms, loop boundary keypoints). -/
structure Externals (F K M S : Type) where
  frameSource : ℕ → ℕ → ℕ → List F
  filter : List F → List F
  sacAlign : List F → M → AlignResult F K M S
  icpAlign : List F → List K → M → AlignResult F K M S
  balance : List F → ℕ → List ℕ
  elchCorrect : List F → List K → List M → Option K → CorrectResult F K M
  lumCorrect : List F → List K → List M → Option K → CorrectResult F K M

/-- Sequential construction of Loops with the throwing constructor, as a
std::vector of push_back calls: the first constructor exception aborts
the whole sequence. -/
def mapMkLoop (ps : List (ℕ × ℕ)) : Except RegError (List (Loop F K M S)) :=
  match ps with
  | [] => .ok []
  | p :: rest =>
    match mkLoop (F := F) (K := K) (M := M) (S := S) p.1 p.2 with
    | .error e => .error e
    | .ok l =>
      match mapMkLoop rest with
      | .error e => .error e
      | .ok ls => .ok (l :: ls)

/-- Fixed-mode branch of prepare_all_loops up to edge-frame collection:
build the Loops from the fixed edge pairs, then read the edge frames from
loops.front().first to loops.back().second with stride read_loop_size.
front() and back() of an empty vector are undefined behaviour in C++ and
are modelled as an out-of-bounds error. -/
def selectFixed (ext : Externals F K M S) (cfg : Config) :
    Except RegError (List (Loop F K M S) × List F) :=
  let L := (cfg.loop_size * cfg.read_step) % UINT_MOD
  match mapMkLoop (F := F) (K := K) (M := M) (S := S)
      (fixedLoops cfg.read_from cfg.read_to cfg.read_step cfg.loop_size) with
  | .error e => .error e
  | .ok loops =>
    match loops with
    | [] => .error .outOfBounds
    | fr :: rest =>
      let la := (fr :: rest).getLast (List.cons_ne_nil fr rest)
      .ok (fr :: rest,
           ext.frameSource fr.edge_frames_indexes.1 la.edge_frames_indexes.2 L)

/-- Balanced-mode edge-frame collection of prepare_all_loops: walk the
strided frame stream with a frame index and a cursor into edge_indices,
keeping exactly the frames whose index matches the cursor's entry.  Once
the cursor has passed the end of edge_indices the C++ comparison reads
past the vector; it is modelled as never matching (the well-defined runs
the claims quantify over never reach a further match). -/
def collectEdgeFramesAux (eis : List ℕ) : ℕ → ℕ → List F → List F
  | _, _, [] => []
  | idx, cursor, f :: rest =>
    if eis.getD cursor (idx + 1) = idx then
      f :: collectEdgeFramesAux eis (idx + 1) (cursor + 1) rest
    else
      collectEdgeFramesAux eis (idx + 1) cursor rest

/-- Balanced-mode branch of prepare_all_loops: stream the whole range at
read_step, ask the EdgeBalancer for edge positions, collect the matching
frames, and build one Loop per adjacent pair of edge positions converted
to raw frame indices via position * read_step + read_from (uint
arithmetic; the conversion and the constructor reduce mod 2^32). -/
def selectBalanced (ext : Externals F K M S) (cfg : Config) :
    Except RegError (List (Loop F K M S) × List F) :=
  let stream := ext.frameSource cfg.read_from cfg.read_to cfg.read_step
  let eis := ext.balance stream cfg.loop_size
  let edge_frames := collectEdgeFramesAux eis 0 0 stream
  match mapMkLoop (F := F) (K := K) (M := M) (S := S)
      ((List.range (eis.length - 1)).map fun j =>
        (eis.getD j 0 * cfg.read_step + cfg.read_from,
         eis.getD (j + 1) 0 * cfg.read_step + cfg.read_from)) with
  | .error e => .error e
  | .ok loops => .ok (loops, edge_frames)

/-- The mode dispatch at the top of prepare_all_loops. -/
def selectStage (ext : Externals F K M S) (cfg : Config) :
    Except RegError (List (Loop F K M S) × List F) :=
  if cfg.edge_balancing then selectBalanced ext cfg else selectFixed ext cfg

/-- The coarse global alignment of the (filtered) edge frames, seeded
with the identity. -/
def globalSac (ext : Externals F K M S) (edge_frames : List F) :
    AlignResult F K M S :=
  ext.sacAlign (ext.filter edge_frames) 1

/-- The ICP refinement of the globally aligned edge frames, seeded with
the identity and with the coarse aligner's transformed keypoints. -/
def globalIcp (ext : Externals F K M S) (edge_frames : List F) :
    AlignResult F K M S :=
  ext.icpAlign (globalSac ext edge_frames).transformed
    (globalSac ext edge_frames).transformedKeypoints 1

/-- One assignment of the write loop at the end of prepare_all_loops, for
the loop at position j:
  loops[j].edge_frames        = (edge_frames[j], edge_frames[j+1])
  loops[j].edge_transformations = (icp_t[j]*sac_t[j], icp_t[j+1]*sac_t[j+1])
  loops[j].edge_keypoints     = kp[j]. -/
def setEdgeData (fs : List F) (sac icp : List M) (kps : List K) (j : ℕ)
    (l : Loop F K M S) : Loop F K M S :=
  { l with
    edge_frames :=
      match fs[j]?, fs[j + 1]? with
      | some a, some b => some (a, b)
      | _, _ => none,
    edge_transformations :=
      (icp.getD j 1 * sac.getD j 1, icp.getD (j + 1) 1 * sac.getD (j + 1) 1),
    edge_keypoints := kps[j]? }

/-- The write loop at the end of prepare_all_loops,
  for (uint i = 1; i < icp_t.size(); ++i) writes loops[i-1],
walked over the loop vector with a position counter: position j is
written exactly when j + 1 < icp_t.size(). -/
def assignEdgeDataAux (fs : List F) (sac icp : List M) (kps : List K) :
    ℕ → List (Loop F K M S) → List (Loop F K M S)
  | _, [] => []
  | j, l :: rest =>
    (if j + 1 < icp.length then setEdgeData fs sac icp kps j l else l) ::
      assignEdgeDataAux fs sac icp kps (j + 1) rest

/-- EdgeBasedRegistration::prepare_all_loops: edge selection (fixed or
balanced), the loops/edge-frames consistency check, filtering, the global
SaC + ICP edge alignment, and the per-loop edge data assignment. -/
def prepare_all_loops (ext : Externals F K M S) (cfg : Config) :
    Except RegError (List (Loop F K M S)) :=
  match selectStage ext cfg with
  | .error e => .error e
  | .ok (loops, edge_frames) =>
    if loops.length + 1 ≠ edge_frames.length then
      .error .consistencyError
    else
      .ok (assignEdgeDataAux (ext.filter edge_frames)
            (globalSac ext edge_frames).transforms
            (globalIcp ext edge_frames).transforms
            (globalSac ext edge_frames).keypoints 0 loops)

/-- Interior alignment of process_one_loop: collect and filter the inner
frames of [edge_frames_indexes.first, edge_frames_indexes.second] at
stride read_step, run the SaC aligner seeded with the loop's first edge
transformation, then the ICP aligner on the SaC-transformed frames,
seeded with the identity and with the SaC aligner's transformed
keypoints. -/
def interiorAlign (ext : Externals F K M S) (cfg : Config)
    (loop : Loop F K M S) : AlignResult F K M S × AlignResult F K M S :=
  let inner := ext.filter (ext.frameSource loop.edge_frames_indexes.1
    loop.edge_frames_indexes.2 cfg.read_step)
  let sacRes := ext.sacAlign inner loop.edge_transformations.1
  (sacRes, ext.icpAlign sacRes.transformed sacRes.transformedKeypoints 1)

/-- The composition loop of process_one_loop,
  for (uint i = 0; i < icp_t.size(); ++i)
      result_t.push_back(icp_t[i] * sac_t[i]). -/
def composeResults (icp sac : List M) : List M :=
  (List.range icp.length).map fun i => icp.getD i 1 * sac.getD i 1

/-- The pre-correction per-frame result transforms of process_one_loop:
result_t[i] = icp_t[i] * sac_t[i]. -/
def stepTwoResult (ext : Externals F K M S) (cfg : Config)
    (loop : Loop F K M S) : List M :=
  composeResults (interiorAlign ext cfg loop).2.transforms
    (interiorAlign ext cfg loop).1.transforms

/-- One correction-application loop of process_one_loop,
  for (uint i = 1; i < corr.size(); ++i) result_t[i] = corr[i] * result_t[i].
The loop reads and writes result_t[i] for 1 <= i < corr.size() with no
bounds check, so it indexes result_t past its size exactly when corr has
at least two entries and result_t is shorter than corr: that undefined
behaviour is modelled as an out-of-bounds error. -/
def applyCorrection (corr res : List M) : Except RegError (List M) :=
  if 2 ≤ corr.length ∧ res.length < corr.length then
    .error .outOfBounds
  else
    .ok ((List.range res.length).map fun i =>
      if 1 ≤ i ∧ i < corr.length then corr.getD i 1 * res.getD i 1
      else res.getD i 1)

/-- EdgeBasedRegistration::process_one_loop: interior collection and
alignment, composition result_t[i] = icp_t[i] * sac_t[i], the optional
ELCH then LUM correction passes (each applied to indices i >= 1 only),
and finalization of inner_transformations and inner_t_fitness_scores
(the ICP aligner's fitness scores, untouched by correction). -/
def process_one_loop (ext : Externals F K M S) (cfg : Config)
    (loop : Loop F K M S) : Except RegError (Loop F K M S) :=
  let ia := interiorAlign ext cfg loop
  let result0 := composeResults ia.2.transforms ia.1.transforms
  if cfg.elch_lum then
    let elchRes := ext.elchCorrect ia.2.transformed ia.2.transformedKeypoints
      result0 loop.edge_keypoints
    match applyCorrection elchRes.transforms result0 with
    | .error e => .error e
    | .ok r1 =>
      let lumRes := ext.lumCorrect elchRes.transformed
        elchRes.transformedKeypoints r1 loop.edge_keypoints
      match applyCorrection lumRes.transforms r1 with
      | .error e => .error e
      | .ok r2 =>
        .ok { loop with inner_transformations := r2,
                        inner_t_fitness_scores := ia.2.scores }
  else
    .ok { loop with inner_transformations := result0,
                    inner_t_fitness_scores := ia.2.scores }

/-! Concrete instantiations used to exercise the pipeline on closed
inputs: frames, keypoints and fitness scores are naturals and the
transform monoid is the multiplicative monoid of the naturals. -/

/-- A concrete aligner: the per-frame transform of frame f under seed m
is f + m, frames and keypoints pass through, scores are the frames. -/
def natAlign (fs : List ℕ) (m : ℕ) : AlignResult ℕ ℕ ℕ ℕ :=
  { transforms := fs.map fun f => f + m,
    transformed := fs,
    keypoints := fs,
    transformedKeypoints := fs,
    scores := fs }

/-- A concrete set of collaborators: the frame source yields every index
of [first, last], the filter is the identity, both aligners are natAlign
and both correctors return a constant full-length correction. -/
def natExt : Externals ℕ ℕ ℕ ℕ :=
  { frameSource := fun a b _ => (List.range (b + 1 - a)).map fun j => a + j,
    filter := id,
    sacAlign := natAlign,
    icpAlign := fun fs _ m => natAlign fs m,
    balance := fun _ n => List.range n,
    elchCorrect := fun fs ks ms _ =>
      { transforms := ms.map fun _ => 2, transformed := fs,
        transformedKeypoints := ks },
    lumCorrect := fun fs ks ms _ =>
      { transforms := ms.map fun _ => 3, transformed := fs,
        transformedKeypoints := ks } }

/-- Collaborators whose ELCH corrector always returns exactly two
corrective transforms and whose LUM corrector returns a full-length
identity correction, to exercise a wrong-length correction result. -/
def shortCorrExt : Externals ℕ ℕ ℕ ℕ :=
  { natExt with
    elchCorrect := fun fs ks _ _ =>
      { transforms := [10, 10], transformed := fs, transformedKeypoints := ks },
    lumCorrect := fun fs ks ms _ =>
      { transforms := ms.map fun _ => 1, transformed := fs,
        transformedKeypoints := ks } }

/-- A fixed-mode configuration without correction: range [0, 2], stride
1, loop size 1. -/
def cfgFixed : Config :=
  { read_from := 0, read_to := 2, read_step := 1, loop_size := 1,
    edge_balancing := false, elch_lum := false }

/-- The same configuration with ELCH/LUM correction enabled. -/
def cfgCorr : Config :=
  { read_from := 0, read_to := 2, read_step := 1, loop_size := 1,
    edge_balancing := false, elch_lum := true }

/-- A fixed-mode configuration whose range [0, 5] is shorter than one
loop of loop_size * read_step = 10 frames. -/
def cfgSmall : Config :=
  { read_from := 0, read_to := 5, read_step := 1, loop_size := 10,
    edge_balancing := false, elch_lum := false }

/-- The two Loops selected for cfgFixed, as freshly constructed. -/
def loopA : Loop ℕ ℕ ℕ ℕ :=
  { edge_frames_indexes := (0, 1), edge_frames := none, edge_keypoints := none,
    edge_transformations := (1, 1), inner_transformations := [],
    inner_t_fitness_scores := [] }

/-- Second selected Loop for cfgFixed. -/
def loopB : Loop ℕ ℕ ℕ ℕ :=
  { edge_frames_indexes := (1, 2), edge_frames := none, edge_keypoints := none,
    edge_transformations := (1, 1), inner_transformations := [],
    inner_t_fitness_scores := [] }

/-- The LoopSet prepare_all_loops produces from natExt and cfgFixed. -/
def preparedLoops : List (Loop ℕ ℕ ℕ ℕ) :=
  [{ edge_frames_indexes := (0, 1), edge_frames := some (0, 1),
     edge_keypoints := some 0, edge_transformations := (1, 4),
     inner_transformations := [], inner_t_fitness_scores := [] },
   { edge_frames_indexes := (1, 2), edge_frames := some (1, 2),
     edge_keypoints := some 1, edge_transformations := (4, 9),
     inner_transformations := [], inner_t_fitness_scores := [] }]

/-- A freshly constructed Loop over [0, 2]. -/
def loop0 : Loop ℕ ℕ ℕ ℕ :=
  { edge_frames_indexes := (0, 2), edge_frames := none, edge_keypoints := none,
    edge_transformations := (1, 1), inner_transformations := [],
    inner_t_fitness_scores := [] }

/-! Helper lemmas. -/

lemma getD_range_map {α : Type} (f : ℕ → α) (n i : ℕ) (d : α) :
    ((List.range n).map f).getD i d = if i < n then f i else d := by
  rcases Nat.lt_or_ge i n with h | h
  · rw [List.getD_eq_getElem?_getD, List.getElem?_map, List.getElem?_range h]
    simp [h]
  · rw [List.getD_eq_getElem?_getD, List.getElem?_map,
      List.getElem?_eq_none (by simpa using h)]
    simp [Nat.not_lt.mpr h]

lemma mkLoop_ne_outOfBounds (s e : ℕ) :
    mkLoop (F := F) (K := K) (M := M) (S := S) s e ≠ .error .outOfBounds := by
  unfold mkLoop
  dsimp only
  split <;> simp

lemma mkLoop_ok_of_ne (s e : ℕ) (h : (e % UINT_MOD + UINT_MOD - s % UINT_MOD) % UINT_MOD ≠ 0) :
    mkLoop (F := F) (K := K) (M := M) (S := S) s e =
      .ok { edge_frames_indexes := (s % UINT_MOD, e % UINT_MOD),
            edge_frames := none,
            edge_keypoints := none,
            edge_transformations := (1, 1),
            inner_transformations := [],
            inner_t_fitness_scores := [] } := by
  unfold mkLoop
  simp [h]

lemma mapMkLoop_ok_length (ps : List (ℕ × ℕ)) (ls : List (Loop F K M S))
    (h : mapMkLoop ps = .ok ls) : ls.length = ps.length := by
  induction ps generalizing ls with
  | nil =>
    unfold mapMkLoop at h
    cases h
    rfl
  | cons p rest ih =>
    unfold mapMkLoop at h
    rcases hm : mkLoop (F := F) (K := K) (M := M) (S := S) p.1 p.2 with e | l
    · rw [hm] at h
      cases h
    · rw [hm] at h
      rcases hr : mapMkLoop (F := F) (K := K) (M := M) (S := S) rest with e | ls'
      · rw [hr] at h
        cases h
      · rw [hr] at h
        cases h
        simp [ih ls' hr]

lemma mapMkLoop_ne_outOfBounds (ps : List (ℕ × ℕ)) :
    mapMkLoop (F := F) (K := K) (M := M) (S := S) ps ≠ .error .outOfBounds := by
  induction ps with
  | nil =>
    unfold mapMkLoop
    simp
  | cons p rest ih =>
    unfold mapMkLoop
    rcases hm : mkLoop (F := F) (K := K) (M := M) (S := S) p.1 p.2 with e | l
    · have he : e ≠ RegError.outOfBounds := by
        intro hcontra
        exact mkLoop_ne_outOfBounds p.1 p.2 (hcontra ▸ hm)
      simp [he]
    · rcases hr : mapMkLoop (F := F) (K := K) (M := M) (S := S) rest with e | ls'
      · have he : e ≠ RegError.outOfBounds := by
          intro hcontra
          exact ih (hcontra ▸ hr)
        simp [he]
      · simp

lemma assignEdgeDataAux_length (fs : List F) (sac icp : List M) (kps : List K)
    (n : ℕ) (ls : List (Loop F K M S)) :
    (assignEdgeDataAux fs sac icp kps n ls).length = ls.length := by
  induction ls generalizing n with
  | nil => rfl
  | cons l rest ih => simp [assignEdgeDataAux, ih]

lemma assignEdgeDataAux_getD (fs : List F) (sac icp : List M) (kps : List K)
    (d : Loop F K M S) (ls : List (Loop F K M S)) :
    ∀ n j, j < ls.length →
      (assignEdgeDataAux fs sac icp kps n ls).getD j d =
        if n + j + 1 < icp.length then
          setEdgeData fs sac icp kps (n + j) (ls.getD j d)
        else ls.getD j d := by
  induction ls with
  | nil =>
    intro n j hj
    simp at hj
  | cons l rest ih =>
    intro n j hj
    cases j with
    | zero =>
      simp [assignEdgeDataAux]
    | succ j' =>
      have hj' : j' < rest.length := by simpa using hj
      have step : n + 1 + j' = n + (j' + 1) := by omega
      simp only [assignEdgeDataAux, List.getD_cons_succ]
      rw [ih (n + 1) j' hj', step]

lemma applyCorrection_guard (corr res r : List M)
    (h : applyCorrection corr res = .ok r) :
    ¬ (2 ≤ corr.length ∧ res.length < corr.length) := by
  unfold applyCorrection at h
  by_cases hc : 2 ≤ corr.length ∧ res.length < corr.length
  · rw [if_pos hc] at h
    cases h
  · exact hc

lemma applyCorrection_length (corr res r : List M)
    (h : applyCorrection corr res = .ok r) : r.length = res.length := by
  have hg := applyCorrection_guard corr res r h
  unfold applyCorrection at h
  rw [if_neg hg] at h
  cases h
  simp

lemma applyCorrection_getD (corr res r : List M)
    (h : applyCorrection corr res = .ok r) (i : ℕ) :
    r.getD i 1 =
      if 1 ≤ i ∧ i < corr.length then corr.getD i 1 * res.getD i 1
      else res.getD i 1 := by
  have hg := applyCorrection_guard corr res r h
  unfold applyCorrection at h
  rw [if_neg hg] at h
  cases h
  rw [getD_range_map]
  by_cases hi : i < res.length
  · rw [if_pos hi]
  · rw [if_neg hi]
    have hnot : ¬ (1 ≤ i ∧ i < corr.length) := by omega
    rw [if_neg hnot]
    rw [List.getD_eq_getElem?_getD, List.getElem?_eq_none (by omega)]
    rfl

lemma applyCorrection_getD_zero (corr res r : List M)
    (h : applyCorrection corr res = .ok r) : r.getD 0 1 = res.getD 0 1 := by
  rw [applyCorrection_getD corr res r h 0]
  simp

lemma mem_fixedLoopsAux (L read_to : ℕ) (hL : 0 < L)
    (hrt : read_to + L < UINT_MOD) (p : ℕ × ℕ) :
    ∀ fuel i, L ≤ i → i < UINT_MOD → read_to + 1 ≤ i + fuel * L →
      (p ∈ fixedLoopsAux L read_to i fuel ↔
        ∃ k, p = (i + k * L - L, i + k * L) ∧ i + k * L ≤ read_to) := by
  intro fuel
  induction fuel with
  | zero =>
    intro i hLi hiM hfuel
    simp only [fixedLoopsAux, List.not_mem_nil, false_iff]
    rintro ⟨k, hpk, hk⟩
    omega
  | succ f ih =>
    intro i hLi hiM hfuel
    simp only [fixedLoopsAux]
    by_cases hi : i ≤ read_to
    · have hmod1 : (UINT_MOD + i - L) % UINT_MOD = i - L := by
        simp only [UINT_MOD] at hiM ⊢
        omega
      have hiL : i + L < UINT_MOD := by omega
      have hmod2 : (i + L) % UINT_MOD = i + L := Nat.mod_eq_of_lt hiL
      have hfuel' : read_to + 1 ≤ i + L + f * L := by
        have hsucc : (f + 1) * L = f * L + L := by ring
        omega
      rw [if_pos hi, hmod1, hmod2, List.mem_cons,
        ih (i + L) (by omega) hiL hfuel']
      constructor
      · rintro (hpk | ⟨k, hpk, hk⟩)
        · exact ⟨0, by simpa using hpk, by simpa using hi⟩
        · refine ⟨k + 1, ?_, ?_⟩
          · have hE : i + (k + 1) * L = i + L + k * L := by ring
            rw [hE]
            exact hpk
          · have hE : i + (k + 1) * L = i + L + k * L := by ring
            omega
      · rintro ⟨k, hpk, hk⟩
        cases k with
        | zero =>
          left
          simpa using hpk
        | succ k' =>
          right
          refine ⟨k', ?_, ?_⟩
          · have hE : i + (k' + 1) * L = i + L + k' * L := by ring
            rw [hE] at hpk
            exact hpk
          · have hE : i + (k' + 1) * L = i + L + k' * L := by ring
            omega
    · rw [if_neg hi]
      simp only [List.not_mem_nil, false_iff]
      rintro ⟨k, hpk, hk⟩
      omega

/-- Characterization of the fixed-mode edge pairs in the wrap-free uint
regime: they are exactly the whole-L segments starting at read_from whose
upper edge does not pass read_to. -/
lemma mem_fixedLoops (read_from read_to read_step loop_size : ℕ)
    (hL : 0 < loop_size * read_step)
    (hrfL : read_from + loop_size * read_step < UINT_MOD)
    (hrtL : read_to + loop_size * read_step < UINT_MOD) (p : ℕ × ℕ) :
    p ∈ fixedLoops read_from read_to read_step loop_size ↔
      ∃ k, p = (read_from + k * (loop_size * read_step),
                read_from + (k + 1) * (loop_size * read_step)) ∧
        read_from + (k + 1) * (loop_size * read_step) ≤ read_to := by
  have hLlt : loop_size * read_step < UINT_MOD := by omega
  have hunf : fixedLoops read_from read_to read_step loop_size =
      fixedLoopsAux (loop_size * read_step) read_to
        (read_from + loop_size * read_step) (read_to + 1) := by
    simp only [fixedLoops, Nat.mod_eq_of_lt hLlt, Nat.mod_eq_of_lt hrfL]
  have hfuel : read_to + 1 ≤
      read_from + loop_size * read_step + (read_to + 1) * (loop_size * read_step) := by
    have h1 : read_to + 1 ≤ (read_to + 1) * (loop_size * read_step) :=
      Nat.le_mul_of_pos_right (read_to + 1) hL
    omega
  rw [hunf, mem_fixedLoopsAux (loop_size * read_step) read_to hL hrtL p
    (read_to + 1) (read_from + loop_size * read_step) (by omega) hrfL hfuel]
  constructor
  · rintro ⟨k, hpk, hk⟩
    refine ⟨k, ?_, ?_⟩
    · have h1 : read_from + loop_size * read_step + k * (loop_size * read_step) =
          read_from + (k + 1) * (loop_size * read_step) := by ring
      have h2 : read_from + loop_size * read_step + k * (loop_size * read_step)
          - loop_size * read_step = read_from + k * (loop_size * read_step) := by
        omega
      rw [hpk, h2, h1]
    · have h1 : read_from + loop_size * read_step + k * (loop_size * read_step) =
          read_from + (k + 1) * (loop_size * read_step) := by ring
      omega
  · rintro ⟨k, hpk, hk⟩
    refine ⟨k, ?_, ?_⟩
    · have h1 : read_from + loop_size * read_step + k * (loop_size * read_step) =
          read_from + (k + 1) * (loop_size * read_step) := by ring
      have h2 : read_from + loop_size * read_step + k * (loop_size * read_step)
          - loop_size * read_step = read_from + k * (loop_size * read_step) := by
        omega
      rw [hpk, ← h1, ← h2]
    · have h1 : read_from + loop_size * read_step + k * (loop_size * read_step) =
          read_from + (k + 1) * (loop_size * read_step) := by ring
      omega

lemma fixedLoops_eq_nil (read_from read_to read_step loop_size : ℕ)
    (hL : 0 < loop_size * read_step)
    (hrfL : read_from + loop_size * read_step < UINT_MOD)
    (hlt : read_to - read_from < loop_size * read_step) :
    fixedLoops read_from read_to read_step loop_size = [] := by
  have hLlt : loop_size * read_step < UINT_MOD := by omega
  simp only [fixedLoops, Nat.mod_eq_of_lt hLlt, Nat.mod_eq_of_lt hrfL,
    fixedLoopsAux]
  rw [if_neg (by omega)]

lemma fixedLoops_ne_nil (read_from read_to read_step loop_size : ℕ)
    (hL : 0 < loop_size * read_step)
    (hrfL : read_from + loop_size * read_step < UINT_MOD)
    (hge : loop_size * read_step ≤ read_to - read_from) :
    fixedLoops read_from read_to read_step loop_size ≠ [] := by
  have hLlt : loop_size * read_step < UINT_MOD := by omega
  simp only [fixedLoops, Nat.mod_eq_of_lt hLlt, Nat.mod_eq_of_lt hrfL,
    fixedLoopsAux]
  rw [if_pos (by omega)]
  simp

/-! Theorems settling the claims. -/

/-- Claim C1: in fixed mode the Edge Selector produces exactly the edge pairs
(read_from + k*L, read_from + (k+1)*L) with L = loop_size * read_step and
upper edge at most read_to, so every produced loop spans exactly L frames
and a trailing remainder is silently dropped; with read_from = 0,
read_to = 100, read_step = 1, loop_size = 10 it yields the 10 loops with
edges 0, 10, ..., 100, and with read_to = 95 it yields exactly the 9
loops ending at 90. -/
theorem fixed_mode_edges_C1 :
    (∀ read_from read_to read_step loop_size,
      0 < loop_size * read_step →
      read_from + loop_size * read_step < UINT_MOD →
      read_to + loop_size * read_step < UINT_MOD →
      ∀ p, p ∈ fixedLoops read_from read_to read_step loop_size ↔
        ∃ k, p = (read_from + k * (loop_size * read_step),
                  read_from + (k + 1) * (loop_size * read_step)) ∧
          read_from + (k + 1) * (loop_size * read_step) ≤ read_to) ∧
    fixedLoops 0 100 1 10 =
      [(0, 10), (10, 20), (20, 30), (30, 40), (40, 50),
       (50, 60), (60, 70), (70, 80), (80, 90), (90, 100)] ∧
    fixedLoops 0 95 1 10 =
      [(0, 10), (10, 20), (20, 30), (30, 40), (40, 50),
       (50, 60), (60, 70), (70, 80), (80, 90)] :=
  ⟨fun read_from read_to read_step loop_size hL hrfL hrtL p =>
    mem_fixedLoops read_from read_to read_step loop_size hL hrfL hrtL p,
   by decide, by decide⟩

/-- Witness for C1: the edge pair (0, 10) really is produced for the
range [0, 100] with step 1 and loop size 10. -/
theorem fixed_mode_edges_C1_witness : (0, 10) ∈ fixedLoops 0 100 1 10 :=
  (fixed_mode_edges_C1.1 0 100 1 10 (by decide) (by decide) (by decide)
    (0, 10)).mpr ⟨0, by decide, by decide⟩

/-- Claim C7: constructing a Loop with equal boundary indices always throws
std::invalid_argument, and with start < end (both representable as uint)
the construction succeeds with both boundary transforms the identity. -/
theorem mkLoop_C7 (s e : ℕ) (hs : s < UINT_MOD) (he : e < UINT_MOD) :
    (s = e → mkLoop (F := F) (K := K) (M := M) (S := S) s e =
      .error .invalidArgument) ∧
    (s < e → mkLoop (F := F) (K := K) (M := M) (S := S) s e =
      .ok { edge_frames_indexes := (s, e), edge_frames := none,
            edge_keypoints := none, edge_transformations := (1, 1),
            inner_transformations := [], inner_t_fitness_scores := [] }) := by
  constructor
  · intro hse
    subst hse
    have hcond : (s % UINT_MOD + UINT_MOD - s % UINT_MOD) % UINT_MOD = 0 := by
      simp only [UINT_MOD]
      omega
    simp [mkLoop, hcond]
  · intro hlt
    have hcond : (e % UINT_MOD + UINT_MOD - s % UINT_MOD) % UINT_MOD ≠ 0 := by
      rw [Nat.mod_eq_of_lt hs, Nat.mod_eq_of_lt he]
      simp only [UINT_MOD] at hs he ⊢
      omega
    rw [mkLoop_ok_of_ne s e hcond, Nat.mod_eq_of_lt hs, Nat.mod_eq_of_lt he]

/-- Witness for C7: Loop(3, 3) throws and Loop(3, 5) constructs with
identity boundary transforms. -/
theorem mkLoop_C7_witness :
    mkLoop (F := ℕ) (K := ℕ) (M := ℕ) (S := ℕ) 3 3 =
        .error .invalidArgument ∧
    mkLoop (F := ℕ) (K := ℕ) (M := ℕ) (S := ℕ) 3 5 =
      .ok { edge_frames_indexes := (3, 5), edge_frames := none,
            edge_keypoints := none, edge_transformations := (1, 1),
            inner_transformations := [], inner_t_fitness_scores := [] } :=
  ⟨(mkLoop_C7 3 3 (by decide) (by decide)).1 rfl,
   (mkLoop_C7 3 5 (by decide) (by decide)).2 (by decide)⟩

/-- Claim C9: the Loop constructor only compares the unsigned difference
end - start against zero, so a pair of uint indices with end < start
constructs successfully (the spec's strict start < end requirement is
not enforced). -/
theorem mkLoop_C9 (s e : ℕ) (hs : s < UINT_MOD) (he : e < UINT_MOD)
    (hlt : e < s) :
    mkLoop (F := F) (K := K) (M := M) (S := S) s e =
      .ok { edge_frames_indexes := (s, e), edge_frames := none,
            edge_keypoints := none, edge_transformations := (1, 1),
            inner_transformations := [], inner_t_fitness_scores := [] } := by
  have hcond : (e % UINT_MOD + UINT_MOD - s % UINT_MOD) % UINT_MOD ≠ 0 := by
    rw [Nat.mod_eq_of_lt hs, Nat.mod_eq_of_lt he]
    simp only [UINT_MOD] at hs he ⊢
    omega
  rw [mkLoop_ok_of_ne s e hcond, Nat.mod_eq_of_lt hs, Nat.mod_eq_of_lt he]

/-- Witness for C9: Loop(5, 3) constructs successfully. -/
theorem mkLoop_C9_witness :
    mkLoop (F := ℕ) (K := ℕ) (M := ℕ) (S := ℕ) 5 3 =
      .ok { edge_frames_indexes := (5, 3), edge_frames := none,
            edge_keypoints := none, edge_transformations := (1, 1),
            inner_transformations := [], inner_t_fitness_scores := [] } :=
  mkLoop_C9 5 3 (by decide) (by decide) (by decide)

/-- Claim C10: in fixed mode, whenever read_to - read_from is smaller than one
loop of loop_size * read_step frames, the edge-creation loop produces no
Loops and loop preparation then calls front() on the empty loop vector,
an out-of-bounds access and not the advertised consistency error; when
read_to - read_from is at least one loop, the access is in bounds. -/
theorem fixed_mode_empty_C10 (ext : Externals F K M S) (cfg : Config)
    (hb : cfg.edge_balancing = false)
    (hL : 0 < cfg.loop_size * cfg.read_step)
    (hrfL : cfg.read_from + cfg.loop_size * cfg.read_step < UINT_MOD) :
    (cfg.read_to - cfg.read_from < cfg.loop_size * cfg.read_step →
      fixedLoops cfg.read_from cfg.read_to cfg.read_step cfg.loop_size = [] ∧
      prepare_all_loops ext cfg = .error .outOfBounds) ∧
    (cfg.loop_size * cfg.read_step ≤ cfg.read_to - cfg.read_from →
      fixedLoops cfg.read_from cfg.read_to cfg.read_step cfg.loop_size ≠ [] ∧
      selectFixed ext cfg ≠ .error .outOfBounds) := by
  constructor
  · intro hlt
    have hnil := fixedLoops_eq_nil cfg.read_from cfg.read_to cfg.read_step
      cfg.loop_size hL hrfL hlt
    have hself : selectFixed ext cfg = .error .outOfBounds := by
      unfold selectFixed
      rw [hnil]
      rfl
    refine ⟨hnil, ?_⟩
    unfold prepare_all_loops selectStage
    rw [hb]
    simp only [Bool.false_eq_true, if_false]
    rw [hself]
  · intro hge
    have hne := fixedLoops_ne_nil cfg.read_from cfg.read_to cfg.read_step
      cfg.loop_size hL hrfL hge
    refine ⟨hne, ?_⟩
    rcases hmap : mapMkLoop (F := F) (K := K) (M := M) (S := S)
        (fixedLoops cfg.read_from cfg.read_to cfg.read_step cfg.loop_size)
      with e | ls
    · have he : e ≠ RegError.outOfBounds := fun hc =>
        mapMkLoop_ne_outOfBounds _ (hc ▸ hmap)
      unfold selectFixed
      rw [hmap]
      simp [he]
    · have hlen := mapMkLoop_ok_length _ ls hmap
      rcases ls with _ | ⟨a, rest⟩
      · exact absurd (List.length_eq_zero.mp hlen.symm) hne
      · unfold selectFixed
        rw [hmap]
        simp

/-- Witness for C10: with range [0, 5] and loop size 10 preparation hits
the out-of-bounds access, and with range [0, 2] and loop size 1 the loop
vector is non-empty and no out-of-bounds access occurs. -/
theorem fixed_mode_empty_C10_witness :
    (fixedLoops 0 5 1 10 = [] ∧
      prepare_all_loops natExt cfgSmall = .error .outOfBounds) ∧
    (fixedLoops 0 2 1 1 ≠ [] ∧
      selectFixed natExt cfgFixed ≠ .error .outOfBounds) :=
  ⟨(fixed_mode_empty_C10 natExt cfgSmall rfl (by decide) (by decide)).1
      (by decide),
   (fixed_mode_empty_C10 natExt cfgFixed rfl (by decide) (by decide)).2
      (by decide)⟩

/-- Claim C6: in both edge-selection modes, once edge selection and edge-frame
collection have succeeded, a mismatch between the Loop count plus one and
the collected edge-frame count makes prepare_all_loops raise the fatal
consistency error before any alignment, and every run that reaches
alignment (returns a LoopSet) satisfies the count equality. -/
theorem prepare_all_loops_C6 (ext : Externals F K M S) (cfg : Config)
    (loops : List (Loop F K M S)) (ef : List F)
    (hsel : selectStage ext cfg = .ok (loops, ef)) :
    (loops.length + 1 ≠ ef.length →
      prepare_all_loops ext cfg = .error .consistencyError) ∧
    (∀ out, prepare_all_loops ext cfg = .ok out →
      loops.length + 1 = ef.length ∧ out.length = loops.length) := by
  constructor
  · intro hmis
    unfold prepare_all_loops
    rw [hsel]
    simp only [if_pos hmis]
  · intro out hp
    unfold prepare_all_loops at hp
    rw [hsel] at hp
    by_cases hmis : loops.length + 1 ≠ ef.length
    · simp only [if_pos hmis] at hp
      cases hp
    · simp only [if_neg hmis] at hp
      cases hp
      exact ⟨by omega, assignEdgeDataAux_length _ _ _ _ _ _⟩

/-- Witness for C6: the run over natExt and cfgFixed selects two Loops
and three edge frames, passes the consistency check and produces a
LoopSet of two Loops. -/
theorem prepare_all_loops_C6_witness :
    ([loopA, loopB] : List (Loop ℕ ℕ ℕ ℕ)).length + 1 =
        ([0, 1, 2] : List ℕ).length ∧
    preparedLoops.length = ([loopA, loopB] : List (Loop ℕ ℕ ℕ ℕ)).length :=
  (prepare_all_loops_C6 natExt cfgFixed [loopA, loopB] [0, 1, 2]
    rfl).2 preparedLoops rfl

/-- Claim C2: after prepare_all_loops returns a LoopSet, adjacent loops share
their boundary transform — loop j's second boundary transform equals loop
j+1's first — and both equal the composed global transform
icp_t[j+1] * sac_t[j+1] of the shared edge frame, provided the aligners
return one transform per edge frame. -/
theorem prepare_all_loops_C2 (ext : Externals F K M S) (cfg : Config)
    (loops : List (Loop F K M S)) (ef : List F) (out : List (Loop F K M S))
    (d : Loop F K M S) (j : ℕ)
    (hsel : selectStage ext cfg = .ok (loops, ef))
    (hp : prepare_all_loops ext cfg = .ok out)
    (hl : loops.length + 1 = (globalIcp ext ef).transforms.length)
    (hj : j + 1 < loops.length) :
    (out.getD j d).edge_transformations.2 =
      (out.getD (j + 1) d).edge_transformations.1 ∧
    (out.getD j d).edge_transformations.2 =
      (globalIcp ext ef).transforms.getD (j + 1) 1 *
        (globalSac ext ef).transforms.getD (j + 1) 1 := by
  unfold prepare_all_loops at hp
  rw [hsel] at hp
  by_cases hmis : loops.length + 1 ≠ ef.length
  · simp only [if_pos hmis] at hp
    cases hp
  · simp only [if_neg hmis] at hp
    cases hp
    rw [assignEdgeDataAux_getD _ _ _ _ d loops 0 j (by omega),
      assignEdgeDataAux_getD _ _ _ _ d loops 0 (j + 1) (by omega),
      if_pos (by omega), if_pos (by omega)]
    simp [setEdgeData]

/-- Witness for C2: in the prepared LoopSet for natExt and cfgFixed, the
two adjacent loops share the boundary transform 4 = icp_t[1] * sac_t[1]. -/
theorem prepare_all_loops_C2_witness :
    (preparedLoops.getD 0 loop0).edge_transformations.2 =
      (preparedLoops.getD 1 loop0).edge_transformations.1 ∧
    (preparedLoops.getD 0 loop0).edge_transformations.2 =
      (globalIcp natExt [0, 1, 2]).transforms.getD 1 1 *
        (globalSac natExt [0, 1, 2]).transforms.getD 1 1 :=
  prepare_all_loops_C2 natExt cfgFixed [loopA, loopB] [0, 1, 2]
    preparedLoops loop0 0 rfl rfl (by decide) (by decide)

/-- Claim C3: in the interior alignment of process_one_loop the coarse SaC
aligner is seeded with the loop's first boundary transform, the ICP
refinement aligner with the identity, and the pre-correction result
transform of every interior frame i — index 0 included — is the
refinement transform left-multiplied onto the coarse transform,
result_t[i] = icp_t[i] * sac_t[i]. -/
theorem process_one_loop_C3 (ext : Externals F K M S) (cfg : Config)
    (loop : Loop F K M S) :
    (interiorAlign ext cfg loop).1 =
      ext.sacAlign (ext.filter (ext.frameSource loop.edge_frames_indexes.1
        loop.edge_frames_indexes.2 cfg.read_step))
        loop.edge_transformations.1 ∧
    (interiorAlign ext cfg loop).2 =
      ext.icpAlign (interiorAlign ext cfg loop).1.transformed
        (interiorAlign ext cfg loop).1.transformedKeypoints 1 ∧
    ∀ i, i < (interiorAlign ext cfg loop).2.transforms.length →
      (stepTwoResult ext cfg loop).getD i 1 =
        (interiorAlign ext cfg loop).2.transforms.getD i 1 *
          (interiorAlign ext cfg loop).1.transforms.getD i 1 := by
  refine ⟨rfl, rfl, ?_⟩
  intro i hi
  unfold stepTwoResult composeResults
  rw [getD_range_map, if_pos hi]

/-- Witness for C3: for natExt over the loop [0, 2], interior frame 0 has
pre-correction result transform icp_t[0] * sac_t[0] = 1 * 1. -/
theorem process_one_loop_C3_witness :
    (stepTwoResult natExt cfgCorr loop0).getD 0 1 =
      (interiorAlign natExt cfgCorr loop0).2.transforms.getD 0 1 *
        (interiorAlign natExt cfgCorr loop0).1.transforms.getD 0 1 :=
  (process_one_loop_C3 natExt cfgCorr loop0).2.2 0 (by decide)

/-- Claim C4: with loop-closure correction enabled, each correction pass
applies its per-frame correction as result_t[i] = c[i] * result_t[i] for
indices i >= 1 only, and the interior transform at index 0 of every
processed Loop is exactly the pre-correction step-2 transform (c1[0] and
c2[0] are never applied). -/
theorem process_one_loop_C4 (ext : Externals F K M S) (cfg : Config)
    (loop out : Loop F K M S) (hc : cfg.elch_lum = true)
    (hp : process_one_loop ext cfg loop = .ok out) :
    out.inner_transformations.getD 0 1 =
      (stepTwoResult ext cfg loop).getD 0 1 ∧
    ∀ corr res r : List M, applyCorrection corr res = .ok r →
      r.getD 0 1 = res.getD 0 1 ∧
      ∀ i, 1 ≤ i → i < corr.length →
        r.getD i 1 = corr.getD i 1 * res.getD i 1 := by
  constructor
  · unfold process_one_loop at hp
    rw [hc] at hp
    simp only [if_true] at hp
    split at hp
    · cases hp
    next r1 h1 =>
      split at hp
      · cases hp
      next r2 h2 =>
        cases hp
        simp only
        rw [applyCorrection_getD_zero _ _ _ h2,
          applyCorrection_getD_zero _ _ _ h1]
        rfl
  · intro corr res r h
    refine ⟨applyCorrection_getD_zero corr res r h, ?_⟩
    intro i h1i hic
    rw [applyCorrection_getD corr res r h i, if_pos ⟨h1i, hic⟩]

/-- Witness for C4: processing the loop [0, 2] with correction enabled
leaves interior index 0 at its step-2 value 1. -/
theorem process_one_loop_C4_witness :
    ({ edge_frames_indexes := (0, 2), edge_frames := none,
       edge_keypoints := none, edge_transformations := (1, 1),
       inner_transformations := [1, 24, 54],
       inner_t_fitness_scores := [0, 1, 2] } :
        Loop ℕ ℕ ℕ ℕ).inner_transformations.getD 0 1 =
      (stepTwoResult natExt cfgCorr loop0).getD 0 1 :=
  (process_one_loop_C4 natExt cfgCorr loop0 _ rfl rfl).1

/-- Claim C5: with loop-closure correction disabled, process_one_loop finalizes
the Loop with interior_transformations exactly the step-2 result
(icp_t[i] * sac_t[i] per interior frame, no correction applied) and with
the ICP refinement aligner's fitness scores. -/
theorem process_one_loop_C5 (ext : Externals F K M S) (cfg : Config)
    (loop : Loop F K M S) (hc : cfg.elch_lum = false) :
    process_one_loop ext cfg loop =
      .ok { loop with
            inner_transformations := stepTwoResult ext cfg loop,
            inner_t_fitness_scores := (interiorAlign ext cfg loop).2.scores } := by
  unfold process_one_loop
  rw [hc]
  simp only [Bool.false_eq_true, if_false]
  rfl

/-- Witness for C5: processing the loop [0, 2] without correction yields
exactly the composed step-2 transforms and the ICP scores. -/
theorem process_one_loop_C5_witness :
    process_one_loop natExt cfgFixed loop0 =
      .ok { loop0 with
            inner_transformations := stepTwoResult natExt cfgFixed loop0,
            inner_t_fitness_scores :=
              (interiorAlign natExt cfgFixed loop0).2.scores } :=
  process_one_loop_C5 natExt cfgFixed loop0 rfl

/-- Claim C8 as stated is false: with correction enabled, a corrector that
returns two corrective transforms for three interior frames (a length
mismatch) does not make process_one_loop fail; it returns Except.ok and
silently applies the correction only at index 1, leaving index 2 at its
uncorrected value 9 — a partial correction. -/
theorem process_one_loop_C8_cex :
    (shortCorrExt.elchCorrect [0, 1, 2] [0, 1, 2] [1, 4, 9]
        none).transforms.length = 2 ∧
    ([1, 4, 9] : List ℕ).length = 3 ∧
    process_one_loop shortCorrExt cfgCorr loop0 =
      .ok { edge_frames_indexes := (0, 2), edge_frames := none,
            edge_keypoints := none, edge_transformations := (1, 1),
            inner_transformations := [1, 40, 9],
            inner_t_fitness_scores := [0, 1, 2] } :=
  ⟨rfl, rfl, rfl⟩

/-- Claim C8 amended: the correction-application loop of process_one_loop
performs no length validation.  A correction list no longer than the
transform list is applied without any error, and only at indices
1 .. len(corr) - 1: index 0 and every index at or beyond len(corr) keep
their previous transforms (a shorter correction is silently applied
partially).  A correction list with at least two entries and longer than
the transform list indexes the transform vector out of bounds. -/
theorem applyCorrection_C8_amended (corr res : List M) :
    (corr.length ≤ res.length →
      ∃ r, applyCorrection corr res = .ok r ∧ r.length = res.length ∧
        r.getD 0 1 = res.getD 0 1 ∧
        (∀ i, 1 ≤ i → i < corr.length →
          r.getD i 1 = corr.getD i 1 * res.getD i 1) ∧
        (∀ i, corr.length ≤ i → r.getD i 1 = res.getD i 1)) ∧
    (2 ≤ corr.length → res.length < corr.length →
      applyCorrection corr res = .error .outOfBounds) := by
  constructor
  · intro hle
    have hok : applyCorrection corr res =
        .ok ((List.range res.length).map fun i =>
          if 1 ≤ i ∧ i < corr.length then corr.getD i 1 * res.getD i 1
          else res.getD i 1) := by
      unfold applyCorrection
      rw [if_neg (by omega)]
    refine ⟨_, hok, applyCorrection_length _ _ _ hok,
      applyCorrection_getD_zero _ _ _ hok, ?_, ?_⟩
    · intro i h1i hic
      rw [applyCorrection_getD _ _ _ hok i, if_pos ⟨h1i, hic⟩]
    · intro i hci
      rw [applyCorrection_getD _ _ _ hok i,
        if_neg (by omega)]
  · intro h2 hgt
    unfold applyCorrection
    rw [if_pos ⟨h2, hgt⟩]

/-- Witness for the amended C8: a two-element correction of a
three-element transform list succeeds partially, and a four-element
correction of a three-element transform list is the out-of-bounds
access. -/
theorem applyCorrection_C8_amended_witness :
    (∃ r, applyCorrection (M := ℕ) [10, 10] [1, 4, 9] = .ok r ∧
      r.length = ([1, 4, 9] : List ℕ).length ∧
      r.getD 0 1 = ([1, 4, 9] : List ℕ).getD 0 1 ∧
      (∀ i, 1 ≤ i → i < ([10, 10] : List ℕ).length →
        r.getD i 1 = ([10, 10] : List ℕ).getD i 1 *
          ([1, 4, 9] : List ℕ).getD i 1) ∧
      (∀ i, ([10, 10] : List ℕ).length ≤ i →
        r.getD i 1 = ([1, 4, 9] : List ℕ).getD i 1)) ∧
    applyCorrection (M := ℕ) [10, 10, 10, 10] [1, 4, 9] =
      .error .outOfBounds :=
  ⟨(applyCorrection_C8_amended [10, 10] [1, 4, 9]).1 (by decide),
   (applyCorrection_C8_amended [10, 10, 10, 10] [1, 4, 9]).2 (by decide)
     (by decide)⟩

end EdgeBasedRegistration
